import Mathlib

/-!
Verification of the economic-dashboard core (indicator client, query
cache, analytics engine) against its natural-language specification.

The Python source is shallowly embedded: a pandas `DataFrame` with
columns `country, country_code, year, value` becomes a `List Obs`
(rows in table order); machine floats become exact rationals `ℚ`
(NaN / ±inf, which pandas produces for undefined growth rates, become
explicit constructors); Python `None` becomes `Option.none`; a Python
function that may raise becomes a function into `Except`/`Option`,
and a `try/except` becomes a `match` on that result.  `sort_values`
is modelled by the stable `List.mergeSort` (the sorts in the source
are pandas lexsort / per-key sorts; on tables satisfying the spec's
no-duplicate-key invariant the choice of stable vs. unstable sort is
immaterial, and all claim theorems that depend on tie-breaking carry
that invariant as a hypothesis).
-/

/-- One row of the observation table: columns `country`, `country_code`,
`year`, `value` exactly as built by `WorldBankAPI._fetch_country_indicator`. -/
structure Obs where
  country : String
  country_code : String
  year : Int
  value : ℚ
deriving DecidableEq, Repr

/-- The `(country_code, year, value)` triple of a row, the identity used by
the spec's round-trip property. -/
def Obs.triple (r : Obs) : String × Int × ℚ :=
  (r.country_code, r.year, r.value)

/-- Code-point-lexicographic `<` on strings as a boolean test (stated on
the underlying character lists; `strLtB_iff` identifies it with the
string order). -/
def strLtB (a b : String) : Bool :=
  @decide (List.lt a.data b.data) (List.hasDecidableLt a.data b.data)

/-- Code-point-lexicographic `≤` on strings as a boolean test. -/
def strLeB (a b : String) : Bool :=
  ! strLtB b a

/-- Lexicographic comparison on `(country, year)`, the key of
`df.sort_values(['country', 'year'])`. -/
def obsLe (a b : Obs) : Bool :=
  strLtB a.country b.country ||
    (decide (a.country = b.country) && decide (a.year ≤ b.year))

/-- `df.sort_values(['country', 'year'])` (pandas lexsort is stable). -/
def sortCountryYear (df : List Obs) : List Obs :=
  df.mergeSort obsLe

/-- `country_data.sort_values('year')` for a single country's rows. -/
def sortYear (df : List Obs) : List Obs :=
  df.mergeSort (fun a b => decide (a.year ≤ b.year))

/-- `fetch_data`'s cache key (src/app.py line 77):
`f"{indicator}_{'_'.join(countries)}_{start_year}_{end_year}"`.
The country codes are joined in the order given, without sorting. -/
def cache_key (indicator : String) (countries : List String)
    (start_year end_year : Int) : String :=
  indicator ++ "_" ++ String.intercalate "_" countries ++ "_" ++
    toString start_year ++ "_" ++ toString end_year

/-! ### Analytics engine (src/src/utils/helpers.py) -/

/-- The `value` column of the rows of a given country, in table order
(`df[df['country'] == c]['value']`). -/
def valuesOf (df : List Obs) (c : String) : List ℚ :=
  (df.filter (fun r => decide (r.country = c))).map (·.value)

/-- `df['country'].unique()`: the distinct values in first-occurrence order. -/
def uniqueFirst (l : List String) : List String :=
  l.foldl (fun acc c => if c ∈ acc then acc else acc ++ [c]) []

/-- Arithmetic mean (`Series.mean`). -/
def meanQ (l : List ℚ) : ℚ :=
  l.sum / l.length

/-- `Series.median`: middle element of the sorted values, or the average of
the two middle elements for an even count. -/
def medianQ (l : List ℚ) : ℚ :=
  let s := l.mergeSort (fun a b => decide (a ≤ b))
  let n := s.length
  if n % 2 = 1 then s.getD (n / 2) 0
  else (s.getD (n / 2 - 1) 0 + s.getD (n / 2) 0) / 2

/-- `Series.min` (0 on an empty series, a case the callers guard against). -/
def minQ (l : List ℚ) : ℚ :=
  (l.min?).getD 0

/-- `Series.max` (0 on an empty series, a case the callers guard against). -/
def maxQ (l : List ℚ) : ℚ :=
  (l.max?).getD 0

/-- The sample variance with `ddof = 1`; `none` models the `NaN` that
pandas `Series.std` yields on fewer than two observations.  The `std`
column of `calculate_statistics` is the square root of this quantity,
which is irrational in general; every claim about the statistics table
concerns the other columns, so the variance (whose square root the float
code takes) is kept exactly. -/
def sampleVarQ (l : List ℚ) : Option ℚ :=
  if l.length ≤ 1 then none
  else some ((l.map (fun x => (x - meanQ l) ^ 2)).sum / ((l.length : ℚ) - 1))

/-- One row of the `calculate_statistics` output: the aggregations
`mean, median, min, max, std, last` of the country's `value` series.
`latest` is pandas `agg('last')`: the last value in the group's row order,
i.e. the value of the country's last row as stored in the table —
`calculate_statistics` performs no sort. -/
structure StatRow where
  country : String
  mean : ℚ
  median : ℚ
  min : ℚ
  max : ℚ
  sampleVar : Option ℚ
  latest : ℚ
deriving DecidableEq, Repr

/-- The statistics row of one country (`groupby('country')['value'].agg(...)`). -/
def statRowFor (df : List Obs) (c : String) : StatRow :=
  let vs := valuesOf df c
  { country := c
    mean := meanQ vs
    median := medianQ vs
    min := minQ vs
    max := maxQ vs
    sampleVar := sampleVarQ vs
    latest := (vs.getLast?).getD 0 }

/-- `calculate_statistics` (helpers.py lines 57-76): group by country
(group keys in ascending order, as `groupby(sort=True)` produces) and
aggregate each country's `value` series.  The input is not sorted first. -/
def calculate_statistics (df : List Obs) : List StatRow :=
  ((uniqueFirst (df.map (·.country))).mergeSort strLeB).map (statRowFor df)

/-- A float produced by `pct_change() * 100`: pandas yields `NaN` for the
first row of each group (and for `0/0`), and `±inf` when the previous
value is zero and the current one is not. -/
inductive GVal where
  | nan
  | posInf
  | negInf
  | val (q : ℚ)
deriving DecidableEq, Repr

/-- `pct_change() * 100` of the current value `v` against the previous
value `p` of the same group, with IEEE division semantics at `p = 0`. -/
def pctChange100 (p v : ℚ) : GVal :=
  if p = 0 then
    (if v > 0 then .posInf else if v < 0 then .negInf else .nan)
  else .val ((v - p) / p * 100)

/-- A row of the `calculate_growth_rate` output: the original observation
plus the `growth_rate` column. -/
structure GrowthRow where
  obs : Obs
  growth_rate : GVal
deriving DecidableEq, Repr

/-- The rolling `groupby('country')['value'].pct_change()` over a list of
rows already sorted by `(country, year)`: each row is paired with the
previous row of the same country (groups are contiguous after the sort). -/
def growthGo : Option Obs → List Obs → List GrowthRow
  | _, [] => []
  | prev, r :: rs =>
    (⟨r, match prev with
         | some p => if p.country = r.country then pctChange100 p.value r.value else .nan
         | none => .nan⟩ : GrowthRow) :: growthGo (some r) rs

/-- `calculate_growth_rate` (helpers.py lines 79-91): sort by
`(country, year)`, then add `growth_rate = pct_change() * 100` per country.
Every input row is kept; the first row of each country carries `NaN`. -/
def calculate_growth_rate (df : List Obs) : List GrowthRow :=
  growthGo none (sortCountryYear df)

/-- A row of the `calculate_cagr` output, without the derived `cagr`
float, which is `cagrPercent` of these fields (see `cagrPercent`). -/
structure CagrRow where
  country : String
  start_year : Int
  end_year : Int
  start_value : ℚ
  end_value : ℚ
deriving DecidableEq, Repr

/-- The `cagr` float stored in the output row:
`((end_value / start_value) ** (1 / years) - 1) * 100` with the real
exponentiation the Python float code performs. -/
noncomputable def cagrPercent (r : CagrRow) : ℝ :=
  (((r.end_value : ℝ) / (r.start_value : ℝ)) ^
      ((1 : ℝ) / ((r.end_year : ℝ) - (r.start_year : ℝ))) - 1) * 100

/-- Python truthiness of an optional integer argument: `if start_year:`
is taken when the argument is neither `None` nor `0`. -/
def pyTruthy : Option Int → Bool
  | none => false
  | some n => n != 0

/-- `country_data.iloc[[-1]]`: the one-row frame holding the last row. -/
def lastAsList (l : List Obs) : List Obs :=
  match l.getLast? with
  | some r => [r]
  | none => []

/-- The body of `calculate_cagr`'s per-country loop: sort the country's
rows by year, resolve the start/end one-row frames (explicit year filter
when the argument is truthy, else first/last row), skip when either is
empty, and emit a row when `years > 0 and start_val > 0`. -/
def cagrFor (df : List Obs) (sy ey : Option Int) (c : String) : Option CagrRow :=
  let cd := sortYear (df.filter (fun r => decide (r.country = c)))
  let sdata := if pyTruthy sy then cd.filter (fun r => decide (r.year = sy.getD 0)) else cd.take 1
  let edata := if pyTruthy ey then cd.filter (fun r => decide (r.year = ey.getD 0)) else lastAsList cd
  match sdata.head?, edata.head? with
  | some s, some e =>
    if e.year - s.year > 0 ∧ s.value > 0 then
      some { country := c, start_year := s.year, end_year := e.year
             start_value := s.value, end_value := e.value }
    else none
  | _, _ => none

/-- `calculate_cagr` (helpers.py lines 94-146): loop over
`df['country'].unique()` and collect the per-country rows. -/
def calculate_cagr (df : List Obs) (sy ey : Option Int) : List CagrRow :=
  (uniqueFirst (df.map (·.country))).filterMap (cagrFor df sy ey)

/-! ### Query cache (helpers.py lines 149-207)

The on-disk store is modelled as a map from cache key to what a later
read of that file will yield: `none` when the file does not exist,
`corrupt` when opening/JSON-decoding/timestamp-parsing will fail, and
`entry` for a well-formed file.  Timestamps are rational seconds. -/

/-- What reading one persisted cache file yields. -/
inductive DiskEntry where
  | corrupt
  | entry (fetched_at : ℚ) (records : List Obs)

/-- The cache directory: one optional file per key. -/
def CacheStore := String → Option DiskEntry

/-- The body of `load_data_cache`'s `try` block up to the timestamp
parse: open, `json.load`, `datetime.fromisoformat` — any failure is an
exception (`Except.error`). -/
def readEntry : DiskEntry → Except String (ℚ × List Obs)
  | .corrupt => .error "cache read or parse failure"
  | .entry t d => .ok (t, d)

/-- `save_data_cache` (helpers.py lines 149-168): write
`{timestamp: now, data: rows}` under the key, replacing any prior file. -/
def save_data_cache (store : CacheStore) (key : String) (data : List Obs)
    (now : ℚ) : CacheStore :=
  fun k => if k = key then some (.entry now data) else store k

/-- `load_data_cache` (helpers.py lines 171-207): miss when the file does
not exist; the `try/except` turns any read/parse failure into a miss;
otherwise miss exactly when `age_hours > max_age_hours`, else the stored
rows. -/
def load_data_cache (store : CacheStore) (key : String) (now : ℚ)
    (max_age_hours : ℚ) : Option (List Obs) :=
  match store key with
  | none => none
  | some e =>
    match readEntry e with
    | .error _ => none
    | .ok (t, data) => if (now - t) / 3600 > max_age_hours then none else some data

/-! ### Pairwise comparison (helpers.py lines 262-291) -/

/-- The rows of a table paired with their positional index labels, as a
pandas boolean-mask selection keeps the original index. -/
def withIdx : Nat → List Obs → List (Nat × Obs)
  | _, [] => []
  | n, r :: rs => (n, r) :: withIdx (n + 1) rs

/-- `df[df['country'] == c]`: the country's rows with their original
index labels. -/
def subframe (df : List Obs) (c : String) : List (Nat × Obs) :=
  (withIdx 0 df).filter (fun p => decide (p.2.country = c))

/-- The inner-join alignment by index label that `Series.corr` performs
(`self.align(other, join='inner')`): the pairs of values whose index
labels occur in both series, in the first series' order. -/
def alignInner (xs ys : List (Nat × ℚ)) : List (ℚ × ℚ) :=
  xs.filterMap (fun p => (ys.lookup p.1).map (fun v => (p.2, v)))

/-- The dictionary `compare_countries` returns when both countries have
rows.  `correlation = none` is Python `None` (unequal lengths);
`correlation = some pairs` is the float `Series.corr` returns, namely the
Pearson coefficient over the index-aligned `pairs` — `NaN` when `pairs`
is empty. -/
structure CmpRecord where
  country1 : String
  country2 : String
  mean_diff : ℚ
  median_diff : ℚ
  latest_diff : ℚ
  correlation : Option (List (ℚ × ℚ))
deriving DecidableEq, Repr

/-- `compare_countries` (helpers.py lines 262-291): `none` models the
empty dictionary returned when either country has no rows. -/
def compare_countries (df : List Obs) (c1 c2 : String) : Option CmpRecord :=
  let data1 := subframe df c1
  let data2 := subframe df c2
  if data1.isEmpty || data2.isEmpty then none
  else
    some
      { country1 := c1
        country2 := c2
        mean_diff := meanQ (data1.map (·.2.value)) - meanQ (data2.map (·.2.value))
        median_diff := medianQ (data1.map (·.2.value)) - medianQ (data2.map (·.2.value))
        latest_diff := (((data1.map (·.2.value)).getLast?).getD 0) -
          (((data2.map (·.2.value)).getLast?).getD 0)
        correlation :=
          if data1.length = data2.length then
            some (alignInner (data1.map (fun p => (p.1, p.2.value)))
              (data2.map (fun p => (p.1, p.2.value))))
          else none }

/-! ### Indicator client (src/src/api/world_bank.py) -/

/-- One entry of the provider's `records` array: a country name
(`entry['country']['value']`), an ISO-3 code (`entry['countryiso3code']`),
a year (`int(entry['date'])`, modelled post-parse), and a nullable value. -/
structure WBEntry where
  countryName : String
  iso3 : String
  date : Int
  value : Option ℚ
deriving DecidableEq, Repr

/-- The provider's response envelope `[metadata, records]` as
`_fetch_country_indicator` inspects it: the records array can be missing
(`len(json_data) < 2`), `null` (`json_data[1] is None`), or present. -/
inductive WBRecords where
  | absent
  | null
  | records (entries : List WBEntry)

/-- The record-conversion loop of `_fetch_country_indicator` (world_bank.py
lines 117-133): entries whose `value` is null are skipped, every other
entry becomes one observation row. -/
def parseCountryResponse : WBRecords → List Obs
  | .absent => []
  | .null => []
  | .records es =>
    es.filterMap (fun e => e.value.map (fun v => ⟨e.countryName, e.iso3, e.date, v⟩))

/-- The outcome of the network layer for one country: a requests
exception or an HTTP error status (`raise_for_status`) raises; otherwise
a parsed JSON body is available. -/
inductive WBNetResult where
  | failure (msg : String)
  | payload (body : WBRecords)

/-- `_fetch_country_indicator` as seen by its caller: an exception
(`Except.error`) on a failed request, else the converted records. -/
def fetchCountryIndicator : WBNetResult → Except String (List Obs)
  | .failure m => .error m
  | .payload b => .ok (parseCountryResponse b)

/-- The rows a country contributes to `fetch_indicator`: none when its
request fails, its parsed records otherwise. -/
def countryRows (env : String → WBNetResult) (c : String) : List Obs :=
  match fetchCountryIndicator (env c) with
  | .error _ => []
  | .ok d => d

/-- `fetch_indicator` (world_bank.py lines 56-96): loop over the country
codes, `try` the per-country fetch and on exception `continue`; if
nothing accumulated return the explicit empty table, else sort by
`(country, year)`.  `env` gives each country's network outcome. -/
def fetch_indicator (env : String → WBNetResult) (codes : List String) : List Obs :=
  let all_data := codes.foldl
    (fun acc c =>
      match fetchCountryIndicator (env c) with
      | .error _ => acc
      | .ok d => acc ++ d)
    []
  if all_data.isEmpty then [] else sortCountryYear all_data

/-! ### Claim-side (specification) definitions

These follow the specification's words, for comparison with the code
embeddings above. -/

/-- The spec's "latest value": the value at the maximum year for the
country (the value of the last row after a stable sort of the country's
rows by year); `none` when the country has no rows. -/
def valueAtMaxYear (df : List Obs) (c : String) : Option ℚ :=
  ((sortYear (df.filter (fun r => decide (r.country = c)))).getLast?).map (·.value)

/-- The spec's correlation alignment: the two value series aligned by
position after sorting each by year. -/
def pairedByYear (df : List Obs) (c1 c2 : String) : List (ℚ × ℚ) :=
  ((sortYear (df.filter (fun r => decide (r.country = c1)))).map (·.value)).zip
    ((sortYear (df.filter (fun r => decide (r.country = c2)))).map (·.value))

/-! ### C1: the cache key is order-dependent -/

theorem string_data_append (a b : String) : (a ++ b).data = a.data ++ b.data := rfl

/-- C1 counterexample: `["CHN", "USA"]` is a permutation of
`["USA", "CHN"]`, yet `fetch_data`'s cache key differs between the two
orderings, so the same set of countries requested in a different order
does not hit the same cache entry. -/
theorem c1_counterexample_key_depends_on_order :
    List.Perm ["CHN", "USA"] ["USA", "CHN"] ∧
      cache_key "GDP" ["CHN", "USA"] 2000 2020 ≠
        cache_key "GDP" ["USA", "CHN"] 2000 2020 :=
  ⟨List.Perm.swap "USA" "CHN" [], by decide⟩

/-- **C1 (amended).** With the indicator and year range fixed, two country
lists produce the same cache key exactly when their underscore-joins are
equal: the key is deterministic but order-dependent, and permuting the
country codes (whenever it changes the join) yields a different key and
therefore a different cache entry. -/
theorem c1_amended_key_eq_iff_join_eq (indicator : String) (c₁ c₂ : List String)
    (s e : Int) :
    cache_key indicator c₁ s e = cache_key indicator c₂ s e ↔
      String.intercalate "_" c₁ = String.intercalate "_" c₂ := by
  constructor
  · intro h
    have hd := congrArg String.data h
    simp only [cache_key, string_data_append] at hd
    exact String.ext (List.append_cancel_left (List.append_cancel_right
      (List.append_cancel_right (List.append_cancel_right
        (List.append_cancel_right hd)))))
  · intro h
    simp [cache_key, h]

/-! ### General helper lemmas -/

theorem withIdx_filter_map_snd (c : String) :
    ∀ (n : Nat) (df : List Obs),
      ((withIdx n df).filter (fun p => decide (p.2.country = c))).map (·.2) =
        df.filter (fun r => decide (r.country = c))
  | _, [] => rfl
  | n, r :: rs => by
    by_cases h : r.country = c <;>
      simp [withIdx, List.filter_cons, h, withIdx_filter_map_snd c (n + 1) rs]

theorem subframe_map_snd (df : List Obs) (c : String) :
    (subframe df c).map (·.2) = df.filter (fun r => decide (r.country = c)) :=
  withIdx_filter_map_snd c 0 df

theorem subframe_eq_nil_iff (df : List Obs) (c : String) :
    subframe df c = [] ↔ df.filter (fun r => decide (r.country = c)) = [] := by
  rw [← subframe_map_snd]
  exact (List.map_eq_nil_iff).symm

/-! ### C2: the reported latest value depends on row order -/

theorem uniqueFirst_go_mem : ∀ (l acc : List String) (a : String),
    a ∈ l.foldl (fun acc c => if c ∈ acc then acc else acc ++ [c]) acc ↔
      a ∈ acc ∨ a ∈ l
  | [], acc, a => by simp
  | c :: cs, acc, a => by
    rw [List.foldl_cons, uniqueFirst_go_mem cs _ a]
    by_cases h : c ∈ acc
    · rw [if_pos h]
      simp only [List.mem_cons]
      constructor
      · rintro (ha | ha)
        · exact Or.inl ha
        · exact Or.inr (Or.inr ha)
      · rintro (ha | rfl | ha)
        · exact Or.inl ha
        · exact Or.inl h
        · exact Or.inr ha
    · rw [if_neg h]
      simp only [List.mem_append, List.mem_singleton, List.mem_cons]
      tauto

theorem mem_uniqueFirst (l : List String) (a : String) :
    a ∈ uniqueFirst l ↔ a ∈ l := by
  rw [uniqueFirst, uniqueFirst_go_mem]
  simp

theorem calculate_statistics_mem (df : List Obs) (st : StatRow)
    (hst : st ∈ calculate_statistics df) :
    ∃ c, c ∈ df.map (·.country) ∧ st = statRowFor df c := by
  unfold calculate_statistics at hst
  rcases List.mem_map.mp hst with ⟨c, hc, rfl⟩
  exact ⟨c, (mem_uniqueFirst _ _).mp (List.mem_mergeSort.mp hc), rfl⟩

unseal Rat.add Rat.mul Rat.inv Rat.sub Nat.gcd List.merge List.mergeSort in
/-- C2 counterexample: in the table `[(A, 2020, 5), (A, 2019, 7)]`, whose
rows are not in year order, `calculate_statistics` reports `latest = 7` —
the last-inserted value — while the value at country A's maximum year
2020 is 5; the claim asserts the latter regardless of row order. -/
theorem c2_counterexample_latest_is_last_inserted :
    (calculate_statistics [⟨"A", "A", 2020, 5⟩, ⟨"A", "A", 2019, 7⟩]).map (·.latest) =
        [7] ∧
      valueAtMaxYear [⟨"A", "A", 2020, 5⟩, ⟨"A", "A", 2019, 7⟩] "A" = some 5 ∧
      (7 : ℚ) ≠ 5 := by
  refine ⟨by decide, by decide, by norm_num⟩

/-- **C2 (amended).** `calculate_statistics` performs no sort, so the
reported `latest` is the value of the country's last row in table order.
On a table whose rows for the given country are already in nondecreasing
year order — as every table produced by the fetch path is, since
`fetch_indicator` sorts by `(country, year)` — it therefore equals the
value at that country's maximum year. -/
theorem c2_amended_latest_eq_value_at_max_year (df : List Obs) (st : StatRow)
    (hsort : List.Chain' (· ≤ ·)
      ((df.filter (fun r => decide (r.country = st.country))).map (·.year)))
    (hst : st ∈ calculate_statistics df) :
    some st.latest = valueAtMaxYear df st.country := by
  rcases calculate_statistics_mem df st hst with ⟨c, hc, rfl⟩
  have hcountry : (statRowFor df c).country = c := rfl
  rw [hcountry] at hsort ⊢
  have hne : df.filter (fun r => decide (r.country = c)) ≠ [] := by
    rcases List.mem_map.mp hc with ⟨r, hr, hrc⟩
    exact List.ne_nil_of_mem (List.mem_filter.mpr ⟨hr, by simp [hrc]⟩)
  have hpw : List.Pairwise (fun a b : Obs => a.year ≤ b.year)
      (df.filter (fun r => decide (r.country = c))) :=
    List.pairwise_map.mp (List.chain'_iff_pairwise.mp hsort)
  have hfix : sortYear (df.filter (fun r => decide (r.country = c))) =
      df.filter (fun r => decide (r.country = c)) :=
    List.mergeSort_of_sorted (hpw.imp (fun h => decide_eq_true h))
  unfold valueAtMaxYear
  rw [hfix]
  rcases hgl : (df.filter (fun r => decide (r.country = c))).getLast? with _ | r
  · exact absurd (List.getLast?_eq_none_iff.mp hgl) hne
  · simp [statRowFor, valuesOf, List.getLast?_map, hgl]

unseal Rat.add Rat.mul Rat.inv Rat.sub Nat.gcd List.merge List.mergeSort in
theorem c2_amended_latest_eq_value_at_max_year_witness :
    some (statRowFor [⟨"A", "A", 2019, 7⟩, ⟨"A", "A", 2020, 5⟩] "A").latest =
      valueAtMaxYear [⟨"A", "A", 2019, 7⟩, ⟨"A", "A", 2020, 5⟩] "A" := by
  have h : ((([⟨"A", "A", 2019, 7⟩, ⟨"A", "A", 2020, 5⟩] : List Obs).filter
      (fun r => decide (r.country =
        (statRowFor [⟨"A", "A", 2019, 7⟩, ⟨"A", "A", 2020, 5⟩] "A").country))).map
      (·.year)) = [2019, 2020] := by decide
  exact c2_amended_latest_eq_value_at_max_year
    [⟨"A", "A", 2019, 7⟩, ⟨"A", "A", 2020, 5⟩] _
    (by rw [h]; exact List.chain'_pair.mpr (by norm_num)) (by decide)

/-! ### C3: growth-rate rows are retained, not dropped -/

/-- The tail of a country's growth series: each row paired with the
percentage change against its predecessor in the year-sorted series. -/
def specZip : Obs → List Obs → List (Obs × GVal)
  | _, [] => []
  | p, r :: rs => (r, pctChange100 p.value r.value) :: specZip r rs

/-- A country's growth series as the (amended) specification describes
it: every row of the year-sorted series is kept; the first carries `NaN`,
each later row carries the percentage change against its predecessor. -/
def specCountrySeries : List Obs → List (Obs × GVal)
  | [] => []
  | r :: rs => (r, .nan) :: specZip r rs

theorem strLtB_iff (a b : String) : strLtB a b = true ↔ a < b := by
  rw [String.lt_iff_toList_lt]
  unfold strLtB
  rw [@decide_eq_true_eq (List.lt a.data b.data) (List.hasDecidableLt a.data b.data),
    List.lt_iff_lex_lt]
  exact Iff.rfl

theorem strLeB_iff (a b : String) : strLeB a b = true ↔ a ≤ b := by
  rw [strLeB, Bool.not_eq_true', ← Bool.not_eq_true, strLtB_iff, not_lt]

theorem obsLe_iff (a b : Obs) : obsLe a b = true ↔
    (a.country < b.country ∨ (a.country = b.country ∧ a.year ≤ b.year)) := by
  simp [obsLe, Bool.or_eq_true, Bool.and_eq_true, decide_eq_true_eq, strLtB_iff]

theorem obsLe_trans (a b c : Obs) (hab : obsLe a b) (hbc : obsLe b c) :
    obsLe a c := by
  rw [obsLe_iff] at hab hbc ⊢
  rcases hab with h1 | ⟨h1, h1'⟩ <;> rcases hbc with h2 | ⟨h2, h2'⟩
  · exact Or.inl (lt_trans h1 h2)
  · exact Or.inl (h2 ▸ h1)
  · exact Or.inl (h1 ▸ h2)
  · exact Or.inr ⟨h1.trans h2, h1'.trans h2'⟩

theorem obsLe_total (a b : Obs) : obsLe a b || obsLe b a := by
  rw [Bool.or_eq_true, obsLe_iff, obsLe_iff]
  rcases lt_trichotomy a.country b.country with h | h | h
  · exact Or.inl (Or.inl h)
  · rcases Int.le_total a.year b.year with hy | hy
    · exact Or.inl (Or.inr ⟨h, hy⟩)
    · exact Or.inr (Or.inr ⟨h.symm, hy⟩)
  · exact Or.inr (Or.inl h)

theorem sortCountryYear_sorted_country (df : List Obs) :
    List.Pairwise (fun a b : Obs => a.country ≤ b.country) (sortCountryYear df) := by
  have h := @List.sorted_mergeSort Obs obsLe obsLe_trans obsLe_total df
  exact h.imp (fun hab => by
    rcases (obsLe_iff _ _).mp hab with h' | ⟨h', _⟩
    · exact le_of_lt h'
    · exact le_of_eq h')

theorem growthGo_map_obs : ∀ (prev : Option Obs) (s : List Obs),
    (growthGo prev s).map (·.obs) = s
  | _, [] => rfl
  | prev, r :: rs => by simp [growthGo, growthGo_map_obs (some r) rs]

theorem growthGo_filter_of_not_mem (c : String) :
    ∀ (prev : Option Obs) (s : List Obs), (∀ r ∈ s, r.country ≠ c) →
      (growthGo prev s).filter (fun g => decide (g.obs.country = c)) = []
  | _, [], _ => rfl
  | prev, r :: rs, h => by
    have hr : r.country ≠ c := h r (List.mem_cons_self r rs)
    simp only [growthGo, List.filter_cons, decide_eq_true_eq]
    rw [if_neg (by simpa using hr)]
    exact growthGo_filter_of_not_mem c (some r) rs
      (fun x hx => h x (List.mem_cons_of_mem r hx))

theorem growthGo_filter_block (c : String) :
    ∀ (rs : List Obs) (p : Obs), p.country = c →
      (∀ x ∈ rs, c ≤ x.country) →
      List.Pairwise (fun a b : Obs => a.country ≤ b.country) rs →
      ((growthGo (some p) rs).filter (fun g => decide (g.obs.country = c))).map
          (fun g => (g.obs, g.growth_rate)) =
        specZip p (rs.filter (fun r => decide (r.country = c)))
  | [], p, _, _, _ => rfl
  | r :: rs, p, hp, hge, hpw => by
    rcases List.pairwise_cons.mp hpw with ⟨hr, hpw'⟩
    by_cases hc : r.country = c
    · have hpr : p.country = r.country := by rw [hp, hc]
      simp only [growthGo, List.filter_cons, decide_eq_true_eq, hc, hpr,
        eq_self_iff_true, if_true, List.map_cons, specZip]
      exact congrArg _ (growthGo_filter_block c rs r hc
        (fun x hx => hge x (List.mem_cons_of_mem r hx)) hpw')
    · have hlt : c < r.country :=
        lt_of_le_of_ne (hge r (List.mem_cons_self r rs)) (fun h => hc h.symm)
      have hnone : ∀ x ∈ rs, x.country ≠ c := fun x hx =>
        fun h => absurd (h ▸ hr x hx) (not_le.mpr hlt)
      have hcr : ¬ p.country = r.country := by rw [hp]; exact fun h => hc h.symm
      simp only [growthGo, List.filter_cons, decide_eq_true_eq, hc, hcr,
        if_false, ite_false]
      rw [growthGo_filter_of_not_mem c (some r) rs hnone]
      rw [List.filter_eq_nil_iff.mpr (fun x hx => by simpa using hnone x hx)]
      rfl

theorem growthGo_filter_spec (c : String) :
    ∀ (s : List Obs) (prev : Option Obs),
      (∀ p, prev = some p → p.country ≠ c) →
      List.Pairwise (fun a b : Obs => a.country ≤ b.country) s →
      ((growthGo prev s).filter (fun g => decide (g.obs.country = c))).map
          (fun g => (g.obs, g.growth_rate)) =
        specCountrySeries (s.filter (fun r => decide (r.country = c)))
  | [], _, _, _ => rfl
  | r :: rs, prev, hprev, hpw => by
    rcases List.pairwise_cons.mp hpw with ⟨hr, hpw'⟩
    have hblock := fun (hc : r.country = c) =>
      growthGo_filter_block c rs r hc (fun x hx => hc ▸ hr x hx) hpw'
    by_cases hc : r.country = c
    · cases prev with
      | none =>
        simp only [growthGo, List.filter_cons, decide_eq_true_eq, hc,
          eq_self_iff_true, if_true, List.map_cons, specCountrySeries]
        exact congrArg _ (hblock hc)
      | some p =>
        have hpc : ¬ p.country = c := hprev p rfl
        simp only [growthGo, List.filter_cons, decide_eq_true_eq, hc, hpc,
          eq_self_iff_true, if_true, if_false, ite_false, List.map_cons,
          specCountrySeries]
        exact congrArg _ (hblock hc)
    · simp only [growthGo, List.filter_cons, decide_eq_true_eq, hc, if_false, ite_false]
      exact growthGo_filter_spec c rs (some r) (fun p hp => by cases hp; exact hc) hpw'

unseal Rat.add Rat.mul Rat.inv Rat.sub Nat.gcd List.merge List.mergeSort in
/-- C3 counterexample: for country A with values 100, 110, 99 in years
2018-2020, the output is not the two growth records the claim asserts:
the first-year row is retained with a `NaN` growth rate rather than
being dropped. -/
theorem c3_counterexample_first_year_row_retained :
    (calculate_growth_rate
        [⟨"A", "A", 2018, 100⟩, ⟨"A", "A", 2019, 110⟩, ⟨"A", "A", 2020, 99⟩]).map
        (fun g => (g.obs.year, g.growth_rate)) =
      [(2018, GVal.nan), (2019, GVal.val 10), (2020, GVal.val (-10))] ∧
    (calculate_growth_rate
        [⟨"A", "A", 2018, 100⟩, ⟨"A", "A", 2019, 110⟩, ⟨"A", "A", 2020, 99⟩]).map
        (fun g => (g.obs.year, g.growth_rate)) ≠
      [(2019, GVal.val 10), (2020, GVal.val (-10))] :=
  ⟨by decide, by decide⟩

/-- **C3 (amended).** `calculate_growth_rate` keeps every input row: its
output is the table sorted by `(country, year)` with a `growth_rate`
column attached.  For each country, the year-sorted series carries `NaN`
on its first row (not dropped), and each later row carries
`(value[t] - value[t-1]) / value[t-1] * 100` — pandas produces `±inf`
(or `NaN` for `0/0`) instead of dropping the row when the previous value
is zero. -/
theorem c3_amended_growth_series (df : List Obs) (c : String) :
    (calculate_growth_rate df).map (·.obs) = sortCountryYear df ∧
    ((calculate_growth_rate df).filter (fun g => decide (g.obs.country = c))).map
        (fun g => (g.obs, g.growth_rate)) =
      specCountrySeries ((sortCountryYear df).filter (fun r => decide (r.country = c))) ∧
    ∀ p v : ℚ, p ≠ 0 → pctChange100 p v = GVal.val ((v - p) / p * 100) := by
  refine ⟨growthGo_map_obs none (sortCountryYear df), ?_, ?_⟩
  · exact growthGo_filter_spec c (sortCountryYear df) none (fun p hp => by cases hp)
      (sortCountryYear_sorted_country df)
  · intro p v hp
    simp [pctChange100, hp]

unseal Rat.add Rat.mul Rat.inv Rat.sub Nat.gcd List.merge List.mergeSort in
theorem c3_amended_growth_series_witness :
    ((calculate_growth_rate
        [⟨"A", "A", 2018, 100⟩, ⟨"B", "B", 2018, 1⟩, ⟨"A", "A", 2019, 110⟩]).filter
        (fun g => decide (g.obs.country = "A"))).map
        (fun g => (g.obs, g.growth_rate)) =
      specCountrySeries ((sortCountryYear
        [⟨"A", "A", 2018, 100⟩, ⟨"B", "B", 2018, 1⟩, ⟨"A", "A", 2019, 110⟩]).filter
        (fun r => decide (r.country = "A"))) ∧
    pctChange100 100 110 = GVal.val 10 := by
  constructor
  · exact (c3_amended_growth_series
      [⟨"A", "A", 2018, 100⟩, ⟨"B", "B", 2018, 1⟩, ⟨"A", "A", 2019, 110⟩] "A").2.1
  · have h := (c3_amended_growth_series
      [⟨"A", "A", 2018, 100⟩, ⟨"B", "B", 2018, 1⟩, ⟨"A", "A", 2019, 110⟩] "A").2.2
      100 110 (by norm_num)
    have hq : ((110 : ℚ) - 100) / 100 * 100 = 10 := by norm_num
    rw [h, hq]

/-! ### C4: pairwise comparison: last-row difference and index-aligned
correlation -/

theorem withIdx_fst_ge : ∀ (n : Nat) (df : List Obs) (p : Nat × Obs),
    p ∈ withIdx n df → n ≤ p.1
  | _, [], p, h => by cases h
  | n, r :: rs, p, h => by
    rcases List.mem_cons.mp h with rfl | h'
    · exact le_refl n
    · exact le_trans (Nat.le_succ n) (withIdx_fst_ge (n + 1) rs p h')

theorem withIdx_snd_eq : ∀ (n : Nat) (df : List Obs) (i : Nat) (r r' : Obs),
    (i, r) ∈ withIdx n df → (i, r') ∈ withIdx n df → r = r'
  | _, [], _, _, _, h, _ => by cases h
  | n, a :: rs, i, r, r', h1, h2 => by
    rcases List.mem_cons.mp h1 with he1 | h1' <;> rcases List.mem_cons.mp h2 with he2 | h2'
    · injection he1 with hi1 hr1
      injection he2 with hi2 hr2
      rw [hr1, hr2]
    · injection he1 with hi1 hr1
      have hge := withIdx_fst_ge (n + 1) rs (i, r') h2'
      omega
    · injection he2 with hi2 hr2
      have hge := withIdx_fst_ge (n + 1) rs (i, r) h1'
      omega
    · exact withIdx_snd_eq (n + 1) rs i r r' h1' h2'

/-- With two distinct countries, no index label of the first country's
rows occurs among the second country's rows, so the index-aligned series
that `Series.corr` builds is empty. -/
theorem lookup_subframe_none (df : List Obs) (c1 c2 : String) (hne : c1 ≠ c2)
    (p : Nat × ℚ) (hp : p ∈ (subframe df c1).map (fun q => (q.1, q.2.value))) :
    List.lookup p.1 ((subframe df c2).map (fun q => (q.1, q.2.value))) = none := by
  rw [List.lookup_eq_none_iff]
  intro pv hpv
  rcases List.mem_map.mp hp with ⟨q, hq, rfl⟩
  rcases List.mem_map.mp hpv with ⟨q', hq', rfl⟩
  rw [bne_iff_ne]
  intro hfst
  have hcq : q.2.country = c1 := of_decide_eq_true (List.mem_filter.mp hq).2
  have hcq' : q'.2.country = c2 := of_decide_eq_true (List.mem_filter.mp hq').2
  have hsnd : q.2 = q'.2 := withIdx_snd_eq 0 df q.1 q.2 q'.2
    (List.mem_filter.mp hq).1 (by rw [hfst]; exact (List.mem_filter.mp hq').1)
  exact hne (by rw [← hcq, hsnd, hcq'])

theorem alignInner_eq_nil (xs ys : List (Nat × ℚ))
    (h : ∀ p ∈ xs, List.lookup p.1 ys = none) : alignInner xs ys = [] := by
  unfold alignInner
  rw [List.filterMap_eq_nil_iff]
  intro p hp
  rw [h p hp]
  rfl

theorem subframe_map_value (df : List Obs) (c : String) :
    (subframe df c).map (fun p => p.2.value) = valuesOf df c := by
  have h := congrArg (List.map (fun r : Obs => r.value)) (subframe_map_snd df c)
  rw [List.map_map] at h
  exact h

theorem subframe_length (df : List Obs) (c : String) :
    (subframe df c).length = (df.filter (fun r => decide (r.country = c))).length := by
  rw [← subframe_map_snd, List.length_map]

unseal Rat.add Rat.mul Rat.inv Rat.sub Nat.gcd List.merge List.mergeSort in
/-- C4 counterexample: in the table
`[(A, 2020, 5), (A, 2019, 7), (B, 2019, 1), (B, 2020, 2)]` the two
countries are present with equal observation counts, yet (i) the
reported `latest_diff` is `7 - 2 = 5`, the difference of the last table
rows, while the difference of the most-recent (maximum-year) values is
`5 - 2 = 3`; and (ii) the correlation is `Series.corr`'s NaN over an
empty index alignment (`some []`), not a coefficient over the two
year-sorted series paired positionally, which are nonempty. -/
theorem c4_counterexample_latest_and_correlation :
    (compare_countries
        [⟨"A", "A", 2020, 5⟩, ⟨"A", "A", 2019, 7⟩, ⟨"B", "B", 2019, 1⟩,
          ⟨"B", "B", 2020, 2⟩] "A" "B").map (·.latest_diff) = some 5 ∧
    valueAtMaxYear
        [⟨"A", "A", 2020, 5⟩, ⟨"A", "A", 2019, 7⟩, ⟨"B", "B", 2019, 1⟩,
          ⟨"B", "B", 2020, 2⟩] "A" = some 5 ∧
    valueAtMaxYear
        [⟨"A", "A", 2020, 5⟩, ⟨"A", "A", 2019, 7⟩, ⟨"B", "B", 2019, 1⟩,
          ⟨"B", "B", 2020, 2⟩] "B" = some 2 ∧
    (5 : ℚ) ≠ 5 - 2 ∧
    (compare_countries
        [⟨"A", "A", 2020, 5⟩, ⟨"A", "A", 2019, 7⟩, ⟨"B", "B", 2019, 1⟩,
          ⟨"B", "B", 2020, 2⟩] "A" "B").map (·.correlation) = some (some []) ∧
    pairedByYear
        [⟨"A", "A", 2020, 5⟩, ⟨"A", "A", 2019, 7⟩, ⟨"B", "B", 2019, 1⟩,
          ⟨"B", "B", 2020, 2⟩] "A" "B" = [(7, 1), (5, 2)] :=
  ⟨by decide, by decide, by decide, by decide, by decide, by decide⟩

/-- **C4 (amended).** For two distinct countries both present in the
table, `compare_countries` returns the difference of means and of
medians of the two value series, the difference of the countries' last
rows in table order (not of their most-recent-by-year values), and a
correlation that is `None` when the observation counts differ and
otherwise `Series.corr`'s index-aligned result — which for two distinct
countries aligns zero pairs and is therefore NaN (`some []`), never a
coefficient computed positionally over the year-sorted series. -/
theorem c4_amended_comparison_fields (df : List Obs) (c1 c2 : String)
    (h1 : df.filter (fun r => decide (r.country = c1)) ≠ [])
    (h2 : df.filter (fun r => decide (r.country = c2)) ≠ [])
    (hne : c1 ≠ c2) :
    ∃ rec, compare_countries df c1 c2 = some rec ∧
      rec.mean_diff = meanQ (valuesOf df c1) - meanQ (valuesOf df c2) ∧
      rec.median_diff = medianQ (valuesOf df c1) - medianQ (valuesOf df c2) ∧
      rec.latest_diff =
        ((valuesOf df c1).getLast?).getD 0 - ((valuesOf df c2).getLast?).getD 0 ∧
      rec.correlation =
        (if (df.filter (fun r => decide (r.country = c1))).length =
            (df.filter (fun r => decide (r.country = c2))).length
         then some [] else none) := by
  have e1 : (subframe df c1).isEmpty = false := by
    rw [List.isEmpty_eq_false]
    exact fun hnil => h1 ((subframe_eq_nil_iff df c1).mp hnil)
  have e2 : (subframe df c2).isEmpty = false := by
    rw [List.isEmpty_eq_false]
    exact fun hnil => h2 ((subframe_eq_nil_iff df c2).mp hnil)
  have halign : alignInner ((subframe df c1).map (fun p => (p.1, p.2.value)))
      ((subframe df c2).map (fun p => (p.1, p.2.value))) = [] :=
    alignInner_eq_nil _ _ (lookup_subframe_none df c1 c2 hne)
  refine ⟨⟨c1, c2, meanQ (valuesOf df c1) - meanQ (valuesOf df c2),
    medianQ (valuesOf df c1) - medianQ (valuesOf df c2),
    ((valuesOf df c1).getLast?).getD 0 - ((valuesOf df c2).getLast?).getD 0,
    if (df.filter (fun r => decide (r.country = c1))).length =
        (df.filter (fun r => decide (r.country = c2))).length
      then some [] else none⟩, ?_, rfl, rfl, rfl, rfl⟩
  simp only [compare_countries, e1, e2, Bool.or_self]
  rw [if_neg (by simp)]
  simp only [subframe_map_value, subframe_length, halign]

unseal Rat.add Rat.mul Rat.inv Rat.sub Nat.gcd List.merge List.mergeSort in
theorem c4_amended_comparison_fields_witness :
    ∃ rec, compare_countries [⟨"A", "A", 2000, 3⟩, ⟨"B", "B", 2000, 1⟩] "A" "B" =
        some rec ∧
      rec.mean_diff =
        meanQ (valuesOf [⟨"A", "A", 2000, 3⟩, ⟨"B", "B", 2000, 1⟩] "A") -
          meanQ (valuesOf [⟨"A", "A", 2000, 3⟩, ⟨"B", "B", 2000, 1⟩] "B") ∧
      rec.median_diff =
        medianQ (valuesOf [⟨"A", "A", 2000, 3⟩, ⟨"B", "B", 2000, 1⟩] "A") -
          medianQ (valuesOf [⟨"A", "A", 2000, 3⟩, ⟨"B", "B", 2000, 1⟩] "B") ∧
      rec.latest_diff =
        ((valuesOf [⟨"A", "A", 2000, 3⟩, ⟨"B", "B", 2000, 1⟩] "A").getLast?).getD 0 -
          ((valuesOf [⟨"A", "A", 2000, 3⟩, ⟨"B", "B", 2000, 1⟩] "B").getLast?).getD 0 ∧
      rec.correlation =
        (if (([⟨"A", "A", 2000, 3⟩, ⟨"B", "B", 2000, 1⟩] : List Obs).filter
              (fun r => decide (r.country = "A"))).length =
            (([⟨"A", "A", 2000, 3⟩, ⟨"B", "B", 2000, 1⟩] : List Obs).filter
              (fun r => decide (r.country = "B"))).length
         then some [] else none) :=
  c4_amended_comparison_fields [⟨"A", "A", 2000, 3⟩, ⟨"B", "B", 2000, 1⟩] "A" "B"
    (by decide) (by decide) (by decide)

/-! ### C5: CAGR inclusion conditions and value -/

/-- The table's logical key `(country, year)`; the table invariant is
that no two rows share it.  (The data model states the invariant on
`(country_code, year)`; the analytics functions key on the country name,
which the fetch path puts in one-to-one correspondence with the code.) -/
def pairKey (r : Obs) : String × Int :=
  (r.country, r.year)

theorem head?_mem {α : Type} {l : List α} {a : α} (h : l.head? = some a) : a ∈ l := by
  cases l with
  | nil => cases h
  | cons x t =>
    rw [List.head?_cons, Option.some_inj] at h
    rw [← h]
    exact List.mem_cons_self x t

theorem eq_singleton_of_mem_of_length_le_one {α : Type} {l : List α} {a : α}
    (ha : a ∈ l) (hl : l.length ≤ 1) : l = [a] := by
  match l with
  | [] => cases ha
  | [x] =>
    rcases List.mem_singleton.mp ha with rfl
    rfl
  | x :: y :: t => simp at hl

theorem length_le_one_of_nodup_map_const {l : List Obs} {k : String × Int}
    (hnd : (l.map pairKey).Nodup) (hall : ∀ x ∈ l, pairKey x = k) : l.length ≤ 1 := by
  match l with
  | [] => simp
  | [x] => simp
  | x :: y :: t =>
    exfalso
    rcases List.nodup_cons.mp hnd with ⟨hx, _⟩
    apply hx
    rw [hall x (List.mem_cons_self _ _),
      ← hall y (List.mem_cons_of_mem _ (List.mem_cons_self _ _))]
    exact List.mem_map_of_mem pairKey (List.mem_cons_self y t)

/-- The `(country, year)` keys of the year-sorted rows of one country
remain duplicate-free. -/
theorem sorted_country_nodup_keys (df : List Obs) (c : String)
    (hinv : (df.map pairKey).Nodup) :
    ((sortYear (df.filter (fun r => decide (r.country = c)))).map pairKey).Nodup := by
  have h1 : ((df.filter (fun r => decide (r.country = c))).map pairKey).Nodup :=
    List.Nodup.sublist ((List.filter_sublist df).map pairKey) hinv
  exact ((List.mergeSort_perm (df.filter (fun r => decide (r.country = c)))
    (fun a b => decide (a.year ≤ b.year))).map pairKey).nodup_iff.mpr h1

/-- Membership in the filtered one-row frames of `calculate_cagr`:
the rows with the given country and year. -/
theorem mem_year_filter_iff (df : List Obs) (c : String) (y : Int) (r : Obs) :
    r ∈ (sortYear (df.filter (fun x => decide (x.country = c)))).filter
        (fun x => decide (x.year = y)) ↔
      r ∈ df ∧ r.country = c ∧ r.year = y := by
  rw [List.mem_filter, sortYear, List.mem_mergeSort, List.mem_filter]
  simp [and_assoc]

/-- Characterization of one country's record in `calculate_cagr` with
explicit, truthy start and end years: a record is produced exactly when
the table has a `(c, s)` row with positive value and a `(c, e)` row and
`e > s`, and then it carries those rows' years and values. -/
theorem cagrFor_explicit (df : List Obs) (s e : Int) (hs : s ≠ 0) (he : e ≠ 0)
    (hinv : (df.map pairKey).Nodup) (c : String) (rec : CagrRow) :
    cagrFor df (some s) (some e) c = some rec ↔
      ∃ rs ∈ df, rs.country = c ∧ rs.year = s ∧ rs.value > 0 ∧
        ∃ re ∈ df, re.country = c ∧ re.year = e ∧ e - s > 0 ∧
          rec = ⟨c, s, e, rs.value, re.value⟩ := by
  have hts : pyTruthy (some s) = true := by simp [pyTruthy, hs]
  have hte : pyTruthy (some e) = true := by simp [pyTruthy, he]
  unfold cagrFor
  rw [hts, hte]
  simp only [if_true, Option.getD_some]
  constructor
  · intro h
    rcases hds : ((sortYear (df.filter (fun r => decide (r.country = c)))).filter
        (fun r => decide (r.year = s))).head? with _ | rs
    · rw [hds] at h
      cases h
    rcases hde : ((sortYear (df.filter (fun r => decide (r.country = c)))).filter
        (fun r => decide (r.year = e))).head? with _ | re
    · rw [hds, hde] at h
      cases h
    rw [hds, hde] at h
    dsimp only at h
    rcases (mem_year_filter_iff df c s rs).mp (head?_mem hds) with ⟨hrs, hrsc, hrsy⟩
    rcases (mem_year_filter_iff df c e re).mp (head?_mem hde) with ⟨hre, hrec, hrey⟩
    by_cases hcond : re.year - rs.year > 0 ∧ rs.value > 0
    · rw [if_pos hcond] at h
      refine ⟨rs, hrs, hrsc, hrsy, hcond.2, re, hre, hrec, hrey, ?_, ?_⟩
      · rw [← hrsy, ← hrey]
        exact hcond.1
      · rw [← Option.some_inj.mp h, hrsy, hrey]
    · rw [if_neg hcond] at h
      cases h
  · rintro ⟨rs, hrs, hrsc, hrsy, hrsv, re, hre, hrec, hrey, hgt, rfl⟩
    have hnds : (((sortYear (df.filter (fun r => decide (r.country = c)))).filter
        (fun r => decide (r.year = s))).map pairKey).Nodup :=
      List.Nodup.sublist ((List.filter_sublist _).map pairKey)
        (sorted_country_nodup_keys df c hinv)
    have hnde : (((sortYear (df.filter (fun r => decide (r.country = c)))).filter
        (fun r => decide (r.year = e))).map pairKey).Nodup :=
      List.Nodup.sublist ((List.filter_sublist _).map pairKey)
        (sorted_country_nodup_keys df c hinv)
    have hseq : ((sortYear (df.filter (fun r => decide (r.country = c)))).filter
        (fun r => decide (r.year = s))) = [rs] :=
      eq_singleton_of_mem_of_length_le_one
        ((mem_year_filter_iff df c s rs).mpr ⟨hrs, hrsc, hrsy⟩)
        (length_le_one_of_nodup_map_const hnds (fun x hx => by
          rcases (mem_year_filter_iff df c s x).mp hx with ⟨_, hxc, hxy⟩
          rw [pairKey, hxc, hxy]))
    have heeq : ((sortYear (df.filter (fun r => decide (r.country = c)))).filter
        (fun r => decide (r.year = e))) = [re] :=
      eq_singleton_of_mem_of_length_le_one
        ((mem_year_filter_iff df c e re).mpr ⟨hre, hrec, hrey⟩)
        (length_le_one_of_nodup_map_const hnde (fun x hx => by
          rcases (mem_year_filter_iff df c e x).mp hx with ⟨_, hxc, hxy⟩
          rw [pairKey, hxc, hxy]))
    rw [hseq, heeq]
    simp only [List.head?_cons]
    rw [if_pos (by rw [hrsy, hrey]; exact ⟨hgt, hrsv⟩)]
    rw [hrsy, hrey]

theorem sortYear_sorted (l : List Obs) :
    List.Pairwise (fun a b : Obs => a.year ≤ b.year) (sortYear l) := by
  have h := @List.sorted_mergeSort Obs (fun a b : Obs => decide (a.year ≤ b.year))
    (fun a b c hab hbc => by
      simp only [decide_eq_true_eq] at hab hbc ⊢
      omega)
    (fun a b => by
      simp only [Bool.or_eq_true, decide_eq_true_eq]
      exact Int.le_total a.year b.year) l
  exact h.imp (fun h' => by simpa using h')

theorem head_min_of_pairwise {l : List Obs} {hd : Obs}
    (hpw : List.Pairwise (fun a b : Obs => a.year ≤ b.year) l)
    (hh : l.head? = some hd) : ∀ x ∈ l, hd.year ≤ x.year := by
  cases l with
  | nil => cases hh
  | cons r t =>
    rw [List.head?_cons, Option.some_inj] at hh
    rcases List.pairwise_cons.mp hpw with ⟨hr, _⟩
    intro x hx
    rcases List.mem_cons.mp hx with rfl | hx'
    · rw [← hh]
    · rw [← hh]
      exact hr x hx'

theorem last_max_of_pairwise : ∀ {l : List Obs} {lst : Obs},
    List.Pairwise (fun a b : Obs => a.year ≤ b.year) l →
    l.getLast? = some lst → ∀ x ∈ l, x.year ≤ lst.year := by
  intro l
  induction l with
  | nil => intro lst _ hl; cases hl
  | cons r t ih =>
    intro lst hpw hl x hx
    rcases List.pairwise_cons.mp hpw with ⟨hr, hpw'⟩
    cases ht : t with
    | nil =>
      rw [ht] at hl
      simp only [List.getLast?_singleton, Option.some_inj] at hl
      rcases List.mem_cons.mp hx with rfl | hx'
      · rw [hl]
      · rw [ht] at hx'
        cases hx'
    | cons y u =>
      have hl' : t.getLast? = some lst := by
        rw [ht] at hl ⊢
        rwa [List.getLast?_cons_cons] at hl
      rcases List.mem_cons.mp hx with rfl | hx'
      · have hlm : lst ∈ t := List.mem_of_getLast?_eq_some hl'
        exact hr lst hlm
      · exact ih (ht ▸ hpw') hl' x hx'

theorem take_one_head? {l : List Obs} : (l.take 1).head? = l.head? := by
  cases l <;> rfl

theorem lastAsList_head? {l : List Obs} : (lastAsList l).head? = l.getLast? := by
  unfold lastAsList
  cases h : l.getLast? <;> rfl

/-- Characterization of one country's record in `calculate_cagr` with
both year arguments omitted (`None`), as the application calls it: the
endpoints resolve to the first and last rows of the country's year-sorted
series. -/
theorem cagrFor_default (df : List Obs) (c : String) (rec : CagrRow) :
    cagrFor df none none c = some rec ↔
      ∃ hd lst,
        (sortYear (df.filter (fun r => decide (r.country = c)))).head? = some hd ∧
        (sortYear (df.filter (fun r => decide (r.country = c)))).getLast? = some lst ∧
        lst.year - hd.year > 0 ∧ hd.value > 0 ∧
        rec = ⟨c, hd.year, lst.year, hd.value, lst.value⟩ := by
  unfold cagrFor
  have ht : pyTruthy none = false := rfl
  rw [ht]
  simp only [Bool.false_eq_true, if_false, take_one_head?, lastAsList_head?]
  constructor
  · intro h
    rcases hds : (sortYear (df.filter (fun r => decide (r.country = c)))).head? with _ | hd
    · rw [hds] at h
      cases h
    rcases hde : (sortYear (df.filter (fun r => decide (r.country = c)))).getLast? with _ | lst
    · rw [hds, hde] at h
      cases h
    rw [hds, hde] at h
    dsimp only at h
    by_cases hcond : lst.year - hd.year > 0 ∧ hd.value > 0
    · rw [if_pos hcond] at h
      exact ⟨hd, lst, rfl, rfl, hcond.1, hcond.2, (Option.some_inj.mp h).symm⟩
    · rw [if_neg hcond] at h
      cases h
  · rintro ⟨hd, lst, hhd, hlst, hgt, hval, rfl⟩
    rw [hhd, hlst]
    simp only []
    rw [if_pos ⟨hgt, hval⟩]

theorem cagrFor_country (df : List Obs) (sy ey : Option Int) (c : String)
    (rec : CagrRow) (h : cagrFor df sy ey c = some rec) : rec.country = c := by
  unfold cagrFor at h
  dsimp only at h
  rcases hds : (if pyTruthy sy then
      (sortYear (df.filter (fun r => decide (r.country = c)))).filter
        (fun r => decide (r.year = sy.getD 0))
    else (sortYear (df.filter (fun r => decide (r.country = c)))).take 1).head?
    with _ | s'
  · rw [hds] at h
    cases h
  rcases hde : (if pyTruthy ey then
      (sortYear (df.filter (fun r => decide (r.country = c)))).filter
        (fun r => decide (r.year = ey.getD 0))
    else lastAsList (sortYear (df.filter (fun r => decide (r.country = c))))).head?
    with _ | e'
  · rw [hds, hde] at h
    cases h
  rw [hds, hde] at h
  dsimp only at h
  by_cases hcond : e'.year - s'.year > 0 ∧ s'.value > 0
  · rw [if_pos hcond] at h
    rw [← Option.some_inj.mp h]
  · rw [if_neg hcond] at h
    cases h

theorem mem_calculate_cagr (df : List Obs) (sy ey : Option Int) (rec : CagrRow) :
    rec ∈ calculate_cagr df sy ey ↔
      ∃ c, c ∈ df.map (·.country) ∧ cagrFor df sy ey c = some rec := by
  unfold calculate_cagr
  rw [List.mem_filterMap]
  constructor
  · rintro ⟨c, hc, h⟩
    exact ⟨c, (mem_uniqueFirst _ _).mp hc, h⟩
  · rintro ⟨c, hc, h⟩
    exact ⟨c, (mem_uniqueFirst _ _).mpr hc, h⟩

/-- **C5.** CAGR inclusion and value.  With explicit (truthy) start and
end years, a record is produced for a country exactly when the table has
a start observation `(c, s)` with positive value and an end observation
`(c, e)` and `e > s`; the record then carries those two observations'
years and values (a country failing any condition is silently excluded —
the output simply has no record for it, and the function is total, so no
error is raised).  With the year arguments omitted the endpoints resolve
to the country's earliest and latest observations and the same
`end > start` and `start_value > 0` conditions apply.  The stored float
is `cagrPercent`, which is by definition
`((end_value / start_value) ** (1 / (end_year - start_year)) - 1) * 100`;
for start 100 at 2000 and end 200 at 2010 it lies strictly between 7.17
and 7.19 (≈ 7.177 %). -/
theorem c5_cagr_record_iff (df : List Obs) (c : String)
    (hinv : (df.map pairKey).Nodup) :
    (∀ s e : Int, s ≠ 0 → e ≠ 0 →
      ((∃ rec ∈ calculate_cagr df (some s) (some e), rec.country = c) ↔
        ((∃ rs ∈ df, rs.country = c ∧ rs.year = s ∧ rs.value > 0) ∧
          (∃ re ∈ df, re.country = c ∧ re.year = e) ∧ e > s))) ∧
    (∀ s e : Int, s ≠ 0 → e ≠ 0 → ∀ rec ∈ calculate_cagr df (some s) (some e),
      rec.country = c →
        ∃ rs ∈ df, rs.country = c ∧ rs.year = s ∧ rs.value > 0 ∧
          ∃ re ∈ df, re.country = c ∧ re.year = e ∧
            rec = ⟨c, s, e, rs.value, re.value⟩) ∧
    ((∃ rec ∈ calculate_cagr df none none, rec.country = c) ↔
      (∃ rs ∈ df, rs.country = c ∧ (∀ x ∈ df, x.country = c → rs.year ≤ x.year) ∧
        rs.value > 0 ∧
        ∃ re ∈ df, re.country = c ∧ (∀ x ∈ df, x.country = c → x.year ≤ re.year) ∧
          re.year > rs.year)) ∧
    7.17 < cagrPercent ⟨"X", 2000, 2010, 100, 200⟩ ∧
    cagrPercent ⟨"X", 2000, 2010, 100, 200⟩ < 7.19 := by
  have hmemcd : ∀ x : Obs, x ∈ sortYear (df.filter (fun r => decide (r.country = c))) ↔
      (x ∈ df ∧ x.country = c) := by
    intro x
    rw [sortYear, List.mem_mergeSort, List.mem_filter]
    simp
  refine ⟨?_, ?_, ?_, ?_⟩
  · intro s e hs he
    constructor
    · rintro ⟨rec, hmem, hrc⟩
      rcases (mem_calculate_cagr df _ _ rec).mp hmem with ⟨c', _, hfor⟩
      have hcc : c' = c := (cagrFor_country df _ _ c' rec hfor).symm.trans hrc
      rw [hcc] at hfor
      rcases (cagrFor_explicit df s e hs he hinv c rec).mp hfor with
        ⟨rs, hrs, hrsc, hrsy, hrsv, re, hre, hrec, hrey, hgt, _⟩
      exact ⟨⟨rs, hrs, hrsc, hrsy, hrsv⟩, ⟨re, hre, hrec, hrey⟩, sub_pos.mp hgt⟩
    · rintro ⟨⟨rs, hrs, hrsc, hrsy, hrsv⟩, ⟨re, hre, hrec, hrey⟩, hgt⟩
      refine ⟨⟨c, s, e, rs.value, re.value⟩, ?_, rfl⟩
      refine (mem_calculate_cagr df _ _ _).mpr ⟨c, ?_, ?_⟩
      · exact List.mem_map.mpr ⟨rs, hrs, hrsc⟩
      · exact (cagrFor_explicit df s e hs he hinv c _).mpr
          ⟨rs, hrs, hrsc, hrsy, hrsv, re, hre, hrec, hrey, sub_pos.mpr hgt, rfl⟩
  · intro s e hs he rec hmem hrc
    rcases (mem_calculate_cagr df _ _ rec).mp hmem with ⟨c', _, hfor⟩
    have hcc : c' = c := (cagrFor_country df _ _ c' rec hfor).symm.trans hrc
    rw [hcc] at hfor
    rcases (cagrFor_explicit df s e hs he hinv c rec).mp hfor with
      ⟨rs, hrs, hrsc, hrsy, hrsv, re, hre, hrec, hrey, _, hreceq⟩
    exact ⟨rs, hrs, hrsc, hrsy, hrsv, re, hre, hrec, hrey, hreceq⟩
  · constructor
    · rintro ⟨rec, hmem, hrc⟩
      rcases (mem_calculate_cagr df _ _ rec).mp hmem with ⟨c', _, hfor⟩
      have hcc : c' = c := (cagrFor_country df _ _ c' rec hfor).symm.trans hrc
      rw [hcc] at hfor
      rcases (cagrFor_default df c rec).mp hfor with ⟨hd, lst, hhd, hlst, hgt, hval, _⟩
      have hhmem := (hmemcd hd).mp (head?_mem hhd)
      have hlmem := (hmemcd lst).mp (List.mem_of_getLast?_eq_some hlst)
      refine ⟨hd, hhmem.1, hhmem.2, ?_, hval, lst, hlmem.1, hlmem.2, ?_, sub_pos.mp hgt⟩
      · intro x hx hxc
        exact head_min_of_pairwise (sortYear_sorted _) hhd x ((hmemcd x).mpr ⟨hx, hxc⟩)
      · intro x hx hxc
        exact last_max_of_pairwise (sortYear_sorted _) hlst x ((hmemcd x).mpr ⟨hx, hxc⟩)
    · rintro ⟨rs, hrs, hrsc, hrsmin, hrsv, re, hre, hrec, hremax, hgt⟩
      have hrscd : rs ∈ sortYear (df.filter (fun r => decide (r.country = c))) :=
        (hmemcd rs).mpr ⟨hrs, hrsc⟩
      rcases hhd : (sortYear (df.filter (fun r => decide (r.country = c)))).head?
        with _ | hd
      · rw [List.head?_eq_none_iff] at hhd
        rw [hhd] at hrscd
        cases hrscd
      rcases hlst : (sortYear (df.filter (fun r => decide (r.country = c)))).getLast?
        with _ | lst
      · rw [List.getLast?_eq_none_iff] at hlst
        rw [hlst] at hrscd
        cases hrscd
      have hhmem := (hmemcd hd).mp (head?_mem hhd)
      have hlmem := (hmemcd lst).mp (List.mem_of_getLast?_eq_some hlst)
      have hdrs : hd = rs := by
        apply List.inj_on_of_nodup_map (sorted_country_nodup_keys df c hinv)
          (head?_mem hhd) hrscd
        have hy1 : hd.year ≤ rs.year :=
          head_min_of_pairwise (sortYear_sorted _) hhd rs hrscd
        have hy2 : rs.year ≤ hd.year := hrsmin hd hhmem.1 hhmem.2
        rw [pairKey, pairKey, hhmem.2, hrsc]
        rw [le_antisymm hy1 hy2]
      have hlre : lst = re := by
        apply List.inj_on_of_nodup_map (sorted_country_nodup_keys df c hinv)
          (List.mem_of_getLast?_eq_some hlst) ((hmemcd re).mpr ⟨hre, hrec⟩)
        have hy1 : re.year ≤ lst.year :=
          last_max_of_pairwise (sortYear_sorted _) hlst re ((hmemcd re).mpr ⟨hre, hrec⟩)
        have hy2 : lst.year ≤ re.year := hremax lst hlmem.1 hlmem.2
        rw [pairKey, pairKey, hlmem.2, hrec]
        rw [le_antisymm hy2 hy1]
      refine ⟨⟨c, hd.year, lst.year, hd.value, lst.value⟩, ?_, rfl⟩
      refine (mem_calculate_cagr df _ _ _).mpr ⟨c, List.mem_map.mpr ⟨rs, hrs, hrsc⟩, ?_⟩
      refine (cagrFor_default df c _).mpr ⟨hd, lst, hhd, hlst, ?_, ?_, rfl⟩
      · rw [hdrs, hlre]
        exact sub_pos.mpr hgt
      · rw [hdrs]
        exact hrsv
  · have hval : cagrPercent ⟨"X", 2000, 2010, 100, 200⟩ =
        ((2 : ℝ) ^ ((1 : ℝ) / 10) - 1) * 100 := by
      unfold cagrPercent
      norm_num
    have hx0 : (0 : ℝ) ≤ (2 : ℝ) ^ ((1 : ℝ) / 10) :=
      Real.rpow_nonneg (by norm_num) _
    have hx10 : ((2 : ℝ) ^ ((1 : ℝ) / 10)) ^ (10 : ℕ) = 2 := by
      rw [← Real.rpow_natCast ((2 : ℝ) ^ ((1 : ℝ) / 10)) 10,
        ← Real.rpow_mul (by norm_num : (0 : ℝ) ≤ 2)]
      norm_num
    have h1 : (1.0717 : ℝ) < (2 : ℝ) ^ ((1 : ℝ) / 10) := by
      by_contra hle
      push_neg at hle
      have hp := pow_le_pow_left₀ hx0 hle 10
      rw [hx10] at hp
      have : (1.0717 : ℝ) ^ (10 : ℕ) < 2 := by norm_num
      linarith
    have h2 : (2 : ℝ) ^ ((1 : ℝ) / 10) < (1.0719 : ℝ) := by
      by_contra hle
      push_neg at hle
      have hp := pow_le_pow_left₀ (by norm_num : (0 : ℝ) ≤ (1.0719 : ℝ)) hle 10
      rw [hx10] at hp
      have : (2 : ℝ) < (1.0719 : ℝ) ^ (10 : ℕ) := by norm_num
      linarith
    rw [hval]
    constructor <;> nlinarith [h1, h2]

unseal Rat.add Rat.mul Rat.inv Rat.sub Nat.gcd List.merge List.mergeSort in
theorem c5_cagr_record_iff_witness :
    ∃ rec ∈ calculate_cagr [⟨"X", "X", 2000, 100⟩, ⟨"X", "X", 2010, 200⟩]
        (some 2000) (some 2010), rec.country = "X" :=
  ((c5_cagr_record_iff [⟨"X", "X", 2000, 100⟩, ⟨"X", "X", 2010, 200⟩] "X"
      (by decide)).1 2000 2010 (by decide) (by decide)).mpr
    ⟨⟨⟨"X", "X", 2000, 100⟩, by decide, rfl, rfl, by decide⟩,
     ⟨⟨"X", "X", 2010, 200⟩, by decide, rfl, rfl⟩, by decide⟩

/-! ### C6: cache put/get round trip within the freshness window -/

/-- **C6.** For every table and cache key, reading the cache after a write
under the same key while the entry's age is within the freshness window
returns a table whose `(country_code, year, value)` triples are exactly
those stored (here: a permutation, hence equal as sets); once the age
exceeds the window the read is a miss. -/
theorem c6_cache_put_get_roundtrip (store : CacheStore) (key : String)
    (data : List Obs) (t₀ now max_age_hours : ℚ) :
    ((now - t₀) / 3600 ≤ max_age_hours →
      ∃ t, load_data_cache (save_data_cache store key data t₀) key now max_age_hours =
          some t ∧ List.Perm (t.map Obs.triple) (data.map Obs.triple)) ∧
    ((now - t₀) / 3600 > max_age_hours →
      load_data_cache (save_data_cache store key data t₀) key now max_age_hours = none) := by
  constructor
  · intro h
    exact ⟨data, by simp [load_data_cache, save_data_cache, readEntry, not_lt.mpr h],
      List.Perm.refl _⟩
  · intro h
    simp [load_data_cache, save_data_cache, readEntry, h]

theorem c6_cache_put_get_roundtrip_witness :
    ∃ t, load_data_cache
        (save_data_cache (fun _ => none) "k" [⟨"A", "A", 2000, 1⟩] 0) "k" 3600 24 =
        some t ∧
        List.Perm (t.map Obs.triple) (([⟨"A", "A", 2000, 1⟩] : List Obs).map Obs.triple) :=
  (c6_cache_put_get_roundtrip (fun _ => none) "k" [⟨"A", "A", 2000, 1⟩] 0 3600 24).1
    (by norm_num)

/-! ### C9: cache read failures degrade to a miss -/

/-- **C9.** Any read failure — missing file, or an unreadable/corrupt
entry (the whole `try` block: open, JSON decode, timestamp parse) — makes
`load_data_cache` return a miss (`none`); the function is total, so
nothing propagates to the caller. -/
theorem c9_cache_read_failure_is_miss (store : CacheStore) (key : String)
    (now max_age_hours : ℚ)
    (h : store key = none ∨ store key = some .corrupt) :
    load_data_cache store key now max_age_hours = none := by
  rcases h with h | h <;> simp [load_data_cache, h, readEntry]

theorem c9_cache_read_failure_is_miss_witness :
    load_data_cache (fun _ => some .corrupt) "k" 0 24 = none :=
  c9_cache_read_failure_is_miss (fun _ => some .corrupt) "k" 0 24 (Or.inr rfl)

/-! ### C10: comparison of a missing country yields the empty dictionary -/

/-- **C10.** If either named country has no rows in the table,
`compare_countries` returns the empty dictionary (modelled `none`), with
none of the comparison fields; the function is total, so it cannot raise,
and no partial record is produced. -/
theorem c10_comparison_empty_for_missing_country (df : List Obs) (c1 c2 : String)
    (h : df.filter (fun r => decide (r.country = c1)) = [] ∨
         df.filter (fun r => decide (r.country = c2)) = []) :
    compare_countries df c1 c2 = none := by
  rcases h with h | h
  · have h1 : (subframe df c1).isEmpty = true :=
      List.isEmpty_iff.mpr ((subframe_eq_nil_iff df c1).mpr h)
    simp [compare_countries, h1]
  · have h2 : (subframe df c2).isEmpty = true :=
      List.isEmpty_iff.mpr ((subframe_eq_nil_iff df c2).mpr h)
    simp [compare_countries, h2]

theorem c10_comparison_empty_for_missing_country_witness :
    compare_countries [⟨"B", "B", 2000, 1⟩] "A" "B" = none :=
  c10_comparison_empty_for_missing_country [⟨"B", "B", 2000, 1⟩] "A" "B"
    (Or.inl (by decide))

/-! ### C7: per-country partial failure tolerance of the indicator client -/

theorem fetchStep_eq (env : String → WBNetResult) (acc : List Obs) (c : String) :
    (match fetchCountryIndicator (env c) with
      | .error _ => acc
      | .ok d => acc ++ d) = acc ++ countryRows env c := by
  unfold countryRows
  cases fetchCountryIndicator (env c) <;> simp

theorem fetch_foldl (env : String → WBNetResult) :
    ∀ (codes : List String) (acc : List Obs),
      codes.foldl (fun acc c =>
          match fetchCountryIndicator (env c) with
          | .error _ => acc
          | .ok d => acc ++ d) acc
        = acc ++ codes.flatMap (countryRows env)
  | [], acc => by simp
  | c :: cs, acc => by
    simp only [List.foldl_cons, List.flatMap_cons]
    rw [fetchStep_eq, fetch_foldl env cs, List.append_assoc]

/-- **C7.** `fetch_indicator` never raises (it is a total function: the
per-country `try/except` is the `match` on `fetchCountryIndicator`), and
its result rows are exactly the successful countries' parsed observations
(a permutation of their concatenation — the final sort only reorders);
the result is the explicit empty table precisely when every country
failed or contributed no usable records. -/
theorem c7_partial_failure_tolerance (env : String → WBNetResult) (codes : List String) :
    List.Perm (fetch_indicator env codes) (codes.flatMap (countryRows env)) ∧
      (fetch_indicator env codes = [] ↔ ∀ c ∈ codes, countryRows env c = []) := by
  have hall : fetch_indicator env codes =
      if (codes.flatMap (countryRows env)).isEmpty then []
      else sortCountryYear (codes.flatMap (countryRows env)) := by
    unfold fetch_indicator
    rw [fetch_foldl env codes [], List.nil_append]
  constructor
  · rw [hall]
    by_cases h : (codes.flatMap (countryRows env)).isEmpty
    · rw [if_pos h, List.isEmpty_iff.mp h]
    · rw [if_neg h]
      exact List.mergeSort_perm _ _
  · rw [hall]
    by_cases h : (codes.flatMap (countryRows env)).isEmpty
    · rw [if_pos h]
      exact iff_of_true rfl (List.flatMap_eq_nil_iff.mp (List.isEmpty_iff.mp h))
    · rw [if_neg h]
      have hne : codes.flatMap (countryRows env) ≠ [] := by
        intro hnil
        exact h (by simp [hnil])
      refine iff_of_false ?_ (fun hall => hne (List.flatMap_eq_nil_iff.mpr hall))
      intro hs
      apply hne
      apply List.length_eq_zero.mp
      have h0 : (List.mergeSort (codes.flatMap (countryRows env)) obsLe).length = 0 := by
        rw [show List.mergeSort (codes.flatMap (countryRows env)) obsLe =
            sortCountryYear (codes.flatMap (countryRows env)) from rfl, hs]
        rfl
      rwa [List.length_mergeSort] at h0

/-! ### C8: provider response parsing -/

theorem parse_length : ∀ es : List WBEntry,
    (parseCountryResponse (.records es)).length =
      (es.filter (fun e => e.value.isSome)).length
  | [] => rfl
  | e :: es => by
    have ih := parse_length es
    simp only [parseCountryResponse] at ih ⊢
    cases hv : e.value <;>
      simp [List.filterMap_cons, List.filter_cons, hv, ih]

/-- **C8.** Parsing a provider response: an absent or null records array
yields zero observations; a null-valued record is dropped (it contributes
no row, in particular none with value zero: there are exactly as many
rows as records with a present value), and every remaining record becomes
one observation carrying its year (parsed integer) and value (float). -/
theorem c8_parse_policy (es : List WBEntry) :
    parseCountryResponse .absent = [] ∧
    parseCountryResponse .null = [] ∧
    (parseCountryResponse (.records es)).length =
      (es.filter (fun e => e.value.isSome)).length ∧
    ∀ r : Obs, r ∈ parseCountryResponse (.records es) ↔
      ∃ e ∈ es, e.value = some r.value ∧ r.country = e.countryName ∧
        r.country_code = e.iso3 ∧ r.year = e.date := by
  refine ⟨rfl, rfl, parse_length es, fun r => ?_⟩
  simp only [parseCountryResponse, List.mem_filterMap, Option.map_eq_some']
  constructor
  · rintro ⟨e, he, v, hv, rfl⟩
    exact ⟨e, he, hv, rfl, rfl, rfl⟩
  · rintro ⟨e, he, hv, h1, h2, h3⟩
    refine ⟨e, he, r.value, hv, ?_⟩
    cases r
    simp_all
